import Mathlib

/-!
Verification of the session-liveness tracker of `app.py`.

The tracker consists of the shared state `active_connections` (a Python
set of connection ids) and `connection_last_ping` (a dict from id to the
time of the last accepted signal), the Dash callback
`handle_connection_status` that mutates them on inbound client signals,
and the background loop `monitor_connections` that every 2 seconds (after
a 60 second startup grace period) evicts stale connections and shuts the
process down (`os._exit(0)`) once connections were seen and none remain.

All of these operations run under one lock (`connection_lock`), so an
execution of the process is a sequence of atomic events: signal-handler
invocations and monitor-loop iterations ("ticks"), each with the wall
clock time at which it ran.  We embed the shared state as a record, the
two operations as pure state transformers, and an execution as a fold of
a step function over a list of events.  Times are naturals (seconds);
`os._exit(0)` is modelled by a `terminated` flag plus a counter
`exitCount` of how many times the exit effect was issued, and once the
process has exited no further event has any effect.
-/

/-- The payload of one inbound signal, mirroring the Python dict handed to
`handle_connection_status`: `data.get('id')` and `data.get('status')` may
each be absent. -/
structure SignalData where
  id : Option String
  status : Option String
deriving DecidableEq, Repr

/-- The shared mutable state of the tracker: `active` models the Python set
`active_connections` (as a duplicate-free list), `lastPing` models the dict
`connection_last_ping` (as an association list with unique keys),
`hadConnections` models the monitor thread's `had_connections` variable,
and `terminated`/`exitCount` model the `os._exit(0)` effect. -/
structure TrackerState where
  active : List String
  lastPing : List (String × Nat)
  hadConnections : Bool
  terminated : Bool
  exitCount : Nat
deriving DecidableEq, Repr

/-- Initial state at process start: both containers empty,
`had_connections = False`, process alive. -/
def initState : TrackerState :=
  { active := [], lastPing := [], hadConnections := false,
    terminated := false, exitCount := 0 }

/-- Constant `startup_grace_period = 60` from `monitor_connections`. -/
def startup_grace_period : Nat := 60

/-- Constant `connection_timeout = 300` from `monitor_connections`. -/
def connection_timeout : Nat := 300

/-- The monitor loop sleeps 2 seconds between iterations
(`time.sleep(2)`). -/
def sweep_interval : Nat := 2

/-- Python `set.add`: insert the element if absent, no duplicates. -/
def setAdd (c : String) (l : List String) : List String :=
  if c ∈ l then l else c :: l

/-- Python `dict[k] = v` on an association list: overwrite the entry for
`k` in place if present, otherwise append a fresh entry. -/
def setKey (k : String) (v : Nat) : List (String × Nat) → List (String × Nat)
  | [] => [(k, v)]
  | p :: rest => if p.1 = k then (k, v) :: rest else p :: setKey k v rest

/-- Python `dict.pop(k, None)` on an association list: drop the entry for
`k` if present. -/
def eraseKey (k : String) : List (String × Nat) → List (String × Nat)
  | [] => []
  | p :: rest => if p.1 = k then rest else p :: eraseKey k rest

/-- Python `dict.get(k)` / `dict.get(k, d)` via `Option`. -/
def lookupKey (k : String) : List (String × Nat) → Option Nat
  | [] => none
  | p :: rest => if p.1 = k then some p.2 else lookupKey k rest

/-- The body of the Dash callback `handle_connection_status(data)` at time
`now` (the callback computes `current_time = time.time()` itself; here the
time is an explicit argument).  Falsy `data` (`if not data`) is `none`;
a falsy `connection_id` is `none` or the empty string.  The callback only
logs and returns `dash.no_update` besides these mutations, and it is a
total function: no branch raises, so no error reaches the sender. -/
def handle_connection_status (data : Option SignalData) (now : Nat)
    (s : TrackerState) : TrackerState :=
  match data with
  | none => s
  | some d =>
    match d.id with
    | none => s
    | some cid =>
      if d.status = some "connected" ∧ cid ≠ "" then
        { s with active := setAdd cid s.active,
                 lastPing := setKey cid now s.lastPing }
      else if d.status = some "disconnected" ∧ cid ∈ s.active then
        { s with active := s.active.erase cid,
                 lastPing := eraseKey cid s.lastPing }
      else if d.status = some "ping" ∧ cid ≠ "" then
        { s with lastPing := setKey cid now s.lastPing,
                 active := setAdd cid s.active }
      else if d.status = some "hidden" ∧ cid ≠ "" then
        { s with lastPing := setKey cid now s.lastPing,
                 active := setAdd cid s.active }
      else s

/-- The list `stale_connections` computed by one monitor iteration:
`last_ping = connection_last_ping.get(conn_id, 0)`, stale when
`last_ping > 0 and current_time - last_ping > connection_timeout`. -/
def staleOf (now : Nat) (s : TrackerState) : List String :=
  s.active.filter (fun cid =>
    let lp := (lookupKey cid s.lastPing).getD 0
    decide (0 < lp ∧ connection_timeout < now - lp))

/-- One iteration of the `for conn_id in stale_connections` removal loop:
`active_connections.remove(conn_id)` and
`connection_last_ping.pop(conn_id, None)`. -/
def removeConn (s : TrackerState) (cid : String) : TrackerState :=
  { s with active := s.active.erase cid,
           lastPing := eraseKey cid s.lastPing }

/-- The whole stale-removal loop of one monitor iteration. -/
def reap (now : Nat) (s : TrackerState) : TrackerState :=
  (staleOf now s).foldl removeConn s

/-- One iteration of the `while True` loop in `monitor_connections`, run
at time `now` with the process's `startup_time`.  During the grace period
the iteration `continue`s without touching anything; otherwise it removes
stale connections, then either records `had_connections = True` (registry
non-empty) or, if connections had been seen and none remain, calls
`os._exit(0)` — modelled as setting `terminated` and counting the exit. -/
def monitorTick (startup_time now : Nat) (s : TrackerState) : TrackerState :=
  if now - startup_time < startup_grace_period then s
  else
    let s1 := reap now s
    if s1.active ≠ [] then { s1 with hadConnections := true }
    else if s1.hadConnections then
      { s1 with terminated := true, exitCount := s1.exitCount + 1 }
    else s1

/-- An atomic event of the process: one signal-handler invocation or one
monitor-loop iteration, each stamped with the time at which it ran.  The
lock serialises them, so an execution is a list of events. -/
inductive Event where
  | signal (now : Nat) (data : Option SignalData)
  | tick (now : Nat)
deriving DecidableEq, Repr

/-- One atomic step of the process.  Once `os._exit(0)` has run nothing
further executes, so a terminated state absorbs every event. -/
def step (startup_time : Nat) (s : TrackerState) (e : Event) : TrackerState :=
  if s.terminated then s
  else
    match e with
    | .signal now data => handle_connection_status data now s
    | .tick now => monitorTick startup_time now s

/-- Run an execution: fold the step function over the event list. -/
def run (startup_time : Nat) (s : TrackerState) (es : List Event) : TrackerState :=
  es.foldl (step startup_time) s

/-! ### Small lemmas about the container operations -/

theorem mem_setAdd {c k : String} {l : List String} :
    c ∈ setAdd k l ↔ c = k ∨ c ∈ l := by
  unfold setAdd
  by_cases h : k ∈ l
  · rw [if_pos h]
    constructor
    · exact Or.inr
    · rintro (rfl | hc)
      · exact h
      · exact hc
  · rw [if_neg h, List.mem_cons]

theorem nodup_setAdd {k : String} {l : List String} (h : l.Nodup) :
    (setAdd k l).Nodup := by
  unfold setAdd
  by_cases hk : k ∈ l
  · rwa [if_pos hk]
  · rw [if_neg hk]
    exact List.nodup_cons.mpr ⟨hk, h⟩

theorem lookupKey_setKey_self (k : String) (v : Nat) (l : List (String × Nat)) :
    lookupKey k (setKey k v l) = some v := by
  induction l with
  | nil => simp [setKey, lookupKey]
  | cons p rest ih =>
    by_cases h : p.1 = k
    · simp [setKey, h, lookupKey]
    · simp [setKey, h, lookupKey, ih]

theorem lookupKey_setKey_ne {c k : String} (v : Nat) (l : List (String × Nat))
    (h : c ≠ k) : lookupKey c (setKey k v l) = lookupKey c l := by
  have hkc : ¬ k = c := fun hk => h hk.symm
  induction l with
  | nil => simp [setKey, lookupKey, hkc]
  | cons p rest ih =>
    by_cases hp : p.1 = k
    · subst hp
      simp [setKey, lookupKey, hkc]
    · simp [setKey, hp, lookupKey, ih]

theorem lookupKey_isSome_setKey {c k : String} {v : Nat} {l : List (String × Nat)} :
    (lookupKey c (setKey k v l)).isSome = true ↔
      c = k ∨ (lookupKey c l).isSome = true := by
  by_cases h : c = k
  · subst h
    simp [lookupKey_setKey_self]
  · rw [lookupKey_setKey_ne v l h]
    simp [h]

theorem lookupKey_eraseKey_ne {c k : String} (l : List (String × Nat))
    (h : c ≠ k) : lookupKey c (eraseKey k l) = lookupKey c l := by
  have hkc : ¬ k = c := fun hk => h hk.symm
  induction l with
  | nil => simp [eraseKey]
  | cons p rest ih =>
    by_cases hp : p.1 = k
    · subst hp
      simp [eraseKey, lookupKey, hkc]
    · simp [eraseKey, hp, lookupKey, ih]

theorem lookupKey_eq_none {k : String} {l : List (String × Nat)}
    (h : k ∉ l.map Prod.fst) : lookupKey k l = none := by
  induction l with
  | nil => simp [lookupKey]
  | cons p rest ih =>
    simp only [List.map_cons, List.mem_cons] at h
    push_neg at h
    have hpk : ¬ p.1 = k := fun hp => h.1 hp.symm
    simp [lookupKey, hpk, ih h.2]

theorem lookupKey_isSome_iff_mem_keys {k : String} {l : List (String × Nat)} :
    (lookupKey k l).isSome = true ↔ k ∈ l.map Prod.fst := by
  induction l with
  | nil => simp [lookupKey]
  | cons p rest ih =>
    by_cases hp : p.1 = k
    · simp [lookupKey, hp]
    · have hk : ¬ k = p.1 := fun hk => hp hk.symm
      simp only [lookupKey, if_neg hp, List.map_cons, List.mem_cons]
      rw [ih]
      exact ⟨Or.inr, fun hm => hm.resolve_left hk⟩

theorem lookupKey_eraseKey_self {k : String} {l : List (String × Nat)}
    (h : (l.map Prod.fst).Nodup) : lookupKey k (eraseKey k l) = none := by
  induction l with
  | nil => simp [eraseKey, lookupKey]
  | cons p rest ih =>
    simp only [List.map_cons, List.nodup_cons] at h
    by_cases hp : p.1 = k
    · subst hp
      simpa [eraseKey] using lookupKey_eq_none h.1
    · simp [eraseKey, hp, lookupKey, ih h.2]

theorem mem_keys_setKey {c k : String} {v : Nat} {l : List (String × Nat)} :
    c ∈ (setKey k v l).map Prod.fst ↔ c = k ∨ c ∈ l.map Prod.fst := by
  rw [← lookupKey_isSome_iff_mem_keys, lookupKey_isSome_setKey,
    lookupKey_isSome_iff_mem_keys]

theorem nodup_keys_setKey {k : String} {v : Nat} {l : List (String × Nat)}
    (h : (l.map Prod.fst).Nodup) : ((setKey k v l).map Prod.fst).Nodup := by
  induction l with
  | nil => simp [setKey]
  | cons p rest ih =>
    simp only [List.map_cons, List.nodup_cons] at h
    by_cases hp : p.1 = k
    · subst hp
      simpa [setKey] using h
    · simp only [setKey, if_neg hp, List.map_cons]
      refine List.nodup_cons.mpr ⟨?_, ih h.2⟩
      rw [mem_keys_setKey]
      rintro (hk | hm)
      · exact hp hk
      · exact h.1 hm

theorem eraseKey_sublist (k : String) (l : List (String × Nat)) :
    (eraseKey k l).Sublist l := by
  induction l with
  | nil => simp [eraseKey]
  | cons p rest ih =>
    by_cases hp : p.1 = k
    · simp only [eraseKey, if_pos hp]
      exact List.sublist_cons_self p rest
    · simpa [eraseKey, hp] using ih.cons₂ p

theorem nodup_keys_eraseKey {k : String} {l : List (String × Nat)}
    (h : (l.map Prod.fst).Nodup) : ((eraseKey k l).map Prod.fst).Nodup :=
  ((eraseKey_sublist k l).map Prod.fst).nodup h

/-! ### Structural lemmas about the handler and the monitor loop -/

theorem handle_flags (data : Option SignalData) (now : Nat) (s : TrackerState) :
    (handle_connection_status data now s).hadConnections = s.hadConnections ∧
    (handle_connection_status data now s).terminated = s.terminated ∧
    (handle_connection_status data now s).exitCount = s.exitCount := by
  unfold handle_connection_status
  rcases data with _ | ⟨id, status⟩
  · exact ⟨rfl, rfl, rfl⟩
  rcases id with _ | cid
  · exact ⟨rfl, rfl, rfl⟩
  dsimp only
  split_ifs <;> exact ⟨rfl, rfl, rfl⟩

theorem foldl_removeConn_flags (rm : List String) (s : TrackerState) :
    (rm.foldl removeConn s).hadConnections = s.hadConnections ∧
    (rm.foldl removeConn s).terminated = s.terminated ∧
    (rm.foldl removeConn s).exitCount = s.exitCount := by
  induction rm generalizing s with
  | nil => exact ⟨rfl, rfl, rfl⟩
  | cons a rm ih => exact ih (removeConn s a)

theorem reap_flags (now : Nat) (s : TrackerState) :
    (reap now s).hadConnections = s.hadConnections ∧
    (reap now s).terminated = s.terminated ∧
    (reap now s).exitCount = s.exitCount :=
  foldl_removeConn_flags _ s

theorem foldl_removeConn_active_nodup (rm : List String) (s : TrackerState)
    (h : s.active.Nodup) : (rm.foldl removeConn s).active.Nodup := by
  induction rm generalizing s with
  | nil => exact h
  | cons a rm ih => exact ih (removeConn s a) (h.erase a)

theorem foldl_removeConn_active_mem (rm : List String) (s : TrackerState)
    (h : s.active.Nodup) (c : String) :
    c ∈ (rm.foldl removeConn s).active ↔ c ∈ s.active ∧ c ∉ rm := by
  induction rm generalizing s with
  | nil => simp
  | cons a rm ih =>
    rw [List.foldl_cons, ih (removeConn s a) (h.erase a)]
    show c ∈ s.active.erase a ∧ c ∉ rm ↔ _
    rw [h.mem_erase_iff]
    simp only [List.mem_cons]
    tauto

theorem mem_staleOf {now : Nat} {s : TrackerState} {c : String} :
    c ∈ staleOf now s ↔
      c ∈ s.active ∧ 0 < (lookupKey c s.lastPing).getD 0 ∧
        connection_timeout < now - (lookupKey c s.lastPing).getD 0 := by
  simp [staleOf, List.mem_filter, and_assoc]

theorem mem_reap_active {now : Nat} {s : TrackerState} (h : s.active.Nodup)
    (c : String) :
    c ∈ (reap now s).active ↔ c ∈ s.active ∧ c ∉ staleOf now s :=
  foldl_removeConn_active_mem _ s h c

theorem monitorTick_grace {st now : Nat} (s : TrackerState)
    (h : now - st < startup_grace_period) : monitorTick st now s = s := by
  unfold monitorTick
  rw [if_pos h]

theorem monitorTick_def (st now : Nat) (s : TrackerState)
    (h : ¬ now - st < startup_grace_period) :
    monitorTick st now s =
      (if (reap now s).active ≠ [] then { reap now s with hadConnections := true }
       else if (reap now s).hadConnections then
         { reap now s with terminated := true,
                           exitCount := (reap now s).exitCount + 1 }
       else reap now s) := by
  unfold monitorTick
  rw [if_neg h]

/-! ### The registry invariant (C10's property, used throughout) -/

/-- The well-formedness invariant of the shared state: no duplicates in
either container, and `active_connections` consists of exactly the ids
that have an entry in `connection_last_ping`. -/
def TrackerInv (s : TrackerState) : Prop :=
  s.active.Nodup ∧ (s.lastPing.map Prod.fst).Nodup ∧
  ∀ c, c ∈ s.active ↔ (lookupKey c s.lastPing).isSome = true

theorem TrackerInv_initState : TrackerInv initState := by
  refine ⟨List.nodup_nil, List.nodup_nil, ?_⟩
  intro c
  simp [initState, lookupKey]

theorem TrackerInv_upsert {s : TrackerState} (hInv : TrackerInv s) (cid : String) (now : Nat) :
    TrackerInv { s with active := setAdd cid s.active,
                        lastPing := setKey cid now s.lastPing } := by
  obtain ⟨h1, h2, h3⟩ := hInv
  refine ⟨nodup_setAdd h1, nodup_keys_setKey h2, ?_⟩
  intro c
  show c ∈ setAdd cid s.active ↔ _
  rw [mem_setAdd, lookupKey_isSome_setKey, h3 c]

theorem TrackerInv_removeConn {s : TrackerState} (hInv : TrackerInv s) (cid : String) :
    TrackerInv (removeConn s cid) := by
  obtain ⟨h1, h2, h3⟩ := hInv
  refine ⟨h1.erase cid, nodup_keys_eraseKey h2, ?_⟩
  intro c
  show c ∈ s.active.erase cid ↔ _
  by_cases hc : c = cid
  · subst hc
    rw [h1.mem_erase_iff]
    simp [removeConn, lookupKey_eraseKey_self h2]
  · rw [h1.mem_erase_iff]
    show _ ↔ (lookupKey c (eraseKey cid s.lastPing)).isSome = true
    rw [lookupKey_eraseKey_ne _ hc, ← h3 c]
    simp [hc]

theorem TrackerInv_handle {s : TrackerState} (hInv : TrackerInv s)
    (data : Option SignalData) (now : Nat) :
    TrackerInv (handle_connection_status data now s) := by
  unfold handle_connection_status
  rcases data with _ | ⟨id, status⟩
  · exact hInv
  rcases id with _ | cid
  · exact hInv
  dsimp only
  split_ifs
  · exact TrackerInv_upsert hInv cid now
  · exact TrackerInv_removeConn hInv cid
  · exact TrackerInv_upsert hInv cid now
  · exact TrackerInv_upsert hInv cid now
  · exact hInv

theorem TrackerInv_foldl_removeConn (rm : List String) {s : TrackerState}
    (hInv : TrackerInv s) : TrackerInv (rm.foldl removeConn s) := by
  induction rm generalizing s with
  | nil => exact hInv
  | cons a rm ih => exact ih (TrackerInv_removeConn hInv a)

theorem TrackerInv_reap (now : Nat) {s : TrackerState} (hInv : TrackerInv s) :
    TrackerInv (reap now s) :=
  TrackerInv_foldl_removeConn _ hInv

theorem TrackerInv_monitorTick (st now : Nat) {s : TrackerState} (hInv : TrackerInv s) :
    TrackerInv (monitorTick st now s) := by
  by_cases h : now - st < startup_grace_period
  · rwa [monitorTick_grace s h]
  · rw [monitorTick_def st now s h]
    have h2 := TrackerInv_reap now hInv
    split_ifs <;> exact ⟨h2.1, h2.2.1, h2.2.2⟩

theorem TrackerInv_step (st : Nat) {s : TrackerState} (hInv : TrackerInv s) (e : Event) :
    TrackerInv (step st s e) := by
  unfold step
  split_ifs
  · exact hInv
  rcases e with ⟨now, data⟩ | now
  · exact TrackerInv_handle hInv data now
  · exact TrackerInv_monitorTick st now hInv

theorem TrackerInv_run (st : Nat) {s : TrackerState} (hInv : TrackerInv s) (es : List Event) :
    TrackerInv (run st s es) := by
  induction es generalizing s with
  | nil => exact hInv
  | cons e es ih => exact ih (TrackerInv_step st hInv e)

/-! ### Run-level lemmas -/

theorem run_nil (st : Nat) (s : TrackerState) : run st s [] = s := rfl

theorem run_cons (st : Nat) (s : TrackerState) (e : Event) (es : List Event) :
    run st s (e :: es) = run st (step st s e) es := rfl

theorem run_append (st : Nat) (s : TrackerState) (es1 es2 : List Event) :
    run st s (es1 ++ es2) = run st (run st s es1) es2 := by
  simp [run, List.foldl_append]

theorem step_terminated (st : Nat) {s : TrackerState}
    (h : s.terminated = true) (e : Event) : step st s e = s := by
  unfold step
  rw [if_pos h]

theorem step_alive (st : Nat) {s : TrackerState} (h : s.terminated = false) :
    (∀ now data, step st s (.signal now data) = handle_connection_status data now s) ∧
    (∀ now, step st s (.tick now) = monitorTick st now s) := by
  constructor <;> intro now
  · intro data
    unfold step
    rw [if_neg (by simp [h])]
  · unfold step
    rw [if_neg (by simp [h])]

theorem run_terminated (st : Nat) {s : TrackerState}
    (h : s.terminated = true) (es : List Event) : run st s es = s := by
  induction es with
  | nil => rfl
  | cons e es ih => rw [run_cons, step_terminated st h e, ih]

theorem staleOf_empty {now : Nat} {s : TrackerState} (h : s.active = []) :
    staleOf now s = [] := by
  simp [staleOf, h]

theorem reap_empty {now : Nat} {s : TrackerState} (h : s.active = []) :
    reap now s = s := by
  unfold reap
  rw [staleOf_empty h]
  rfl

theorem monitorTick_terminates {st now : Nat} {s : TrackerState}
    (hg : ¬ now - st < startup_grace_period) (ha : s.active = [])
    (hh : s.hadConnections = true) :
    monitorTick st now s =
      { s with terminated := true, exitCount := s.exitCount + 1 } := by
  rw [monitorTick_def st now s hg, reap_empty ha,
    if_neg (not_not_intro ha), if_pos (by rw [hh])]

theorem monitorTick_empty_nohad {st now : Nat} {s : TrackerState}
    (ha : s.active = []) (hh : s.hadConnections = false) :
    monitorTick st now s = s := by
  by_cases hg : now - st < startup_grace_period
  · exact monitorTick_grace s hg
  · rw [monitorTick_def st now s hg, reap_empty ha,
      if_neg (not_not_intro ha), if_neg (by simp [hh])]

theorem monitorTick_had_mono (st now : Nat) {s : TrackerState}
    (h : s.hadConnections = true) :
    (monitorTick st now s).hadConnections = true := by
  by_cases hg : now - st < startup_grace_period
  · rwa [monitorTick_grace s hg]
  · rw [monitorTick_def st now s hg]
    have hr := (reap_flags now s).1
    split_ifs
    · rfl
    · show (reap now s).hadConnections = true
      rw [hr, h]
    · show (reap now s).hadConnections = true
      rw [hr, h]

theorem step_had_mono (st : Nat) {s : TrackerState} (e : Event)
    (h : s.hadConnections = true) : (step st s e).hadConnections = true := by
  unfold step
  split_ifs
  · exact h
  rcases e with ⟨now, data⟩ | now
  · rw [(handle_flags data now s).1, h]
  · exact monitorTick_had_mono st now h

theorem run_had_mono (st : Nat) {s : TrackerState} (es : List Event)
    (h : s.hadConnections = true) : (run st s es).hadConnections = true := by
  induction es generalizing s with
  | nil => exact h
  | cons e es ih => exact ih (step_had_mono st e h)

/-! ### The exit effect is issued at most once -/

/-- The exit counter agrees with the `terminated` flag: the process has
issued `os._exit(0)` exactly once if it is terminated and never
otherwise. -/
def ExitSync (s : TrackerState) : Prop :=
  (s.terminated = true ∧ s.exitCount = 1) ∨
  (s.terminated = false ∧ s.exitCount = 0)

theorem ExitSync_initState : ExitSync initState :=
  Or.inr ⟨rfl, rfl⟩

theorem ExitSync_step (st : Nat) {s : TrackerState} (hs : ExitSync s)
    (e : Event) : ExitSync (step st s e) := by
  unfold step
  split_ifs with hterm
  · exact hs
  rcases e with ⟨now, data⟩ | now
  · show ExitSync (handle_connection_status data now s)
    have h := handle_flags data now s
    unfold ExitSync
    rw [h.2.1, h.2.2]
    exact hs
  · show ExitSync (monitorTick st now s)
    by_cases hg : now - st < startup_grace_period
    · rwa [monitorTick_grace s hg]
    · rw [monitorTick_def st now s hg]
      have hf := reap_flags now s
      split_ifs
      · unfold ExitSync
        rw [show ({ reap now s with hadConnections := true } : TrackerState).terminated
            = s.terminated from hf.2.1,
          show ({ reap now s with hadConnections := true } : TrackerState).exitCount
            = s.exitCount from hf.2.2]
        exact hs
      · rcases hs with ⟨ht, _⟩ | ⟨_, hc⟩
        · exact absurd ht hterm
        · refine Or.inl ⟨rfl, ?_⟩
          show (reap now s).exitCount + 1 = 1
          rw [hf.2.2, hc]
      · unfold ExitSync
        rw [hf.2.1, hf.2.2]
        exact hs

theorem ExitSync_run (st : Nat) {s : TrackerState} (hs : ExitSync s)
    (es : List Event) : ExitSync (run st s es) := by
  induction es generalizing s with
  | nil => exact hs
  | cons e es ih => exact ih (ExitSync_step st hs e)

/-! ### Lemmas about individual handler branches -/

theorem handle_active_nodup {s : TrackerState} (h : s.active.Nodup)
    (data : Option SignalData) (now : Nat) :
    (handle_connection_status data now s).active.Nodup := by
  unfold handle_connection_status
  rcases data with _ | ⟨id, status⟩
  · exact h
  rcases id with _ | cid
  · exact h
  dsimp only
  split_ifs
  · exact nodup_setAdd h
  · exact h.erase cid
  · exact nodup_setAdd h
  · exact nodup_setAdd h
  · exact h

theorem foldl_handle_nodup (sigs : List (Nat × String)) (cid : String)
    {s : TrackerState} (h : s.active.Nodup) :
    ((sigs.foldl
        (fun acc p => handle_connection_status (some ⟨some cid, some p.2⟩) p.1 acc)
        s).active).Nodup := by
  induction sigs generalizing s with
  | nil => exact h
  | cons p sigs ih => exact ih (handle_active_nodup h _ _)

/-- Predicate `insertingEvent e`: holds exactly when the event is a signal that the
handler registers (inserts or refreshes) in the registry: a non-empty id
with one of the statuses `connected`, `ping`, `hidden`. -/
def insertingEvent : Event → Bool
  | .signal _ none => false
  | .signal _ (some d) =>
    match d.id with
    | none => false
    | some cid =>
      decide (cid ≠ "") &&
        (d.status == some "connected" || d.status == some "ping" ||
          d.status == some "hidden")
  | .tick _ => false

theorem handle_no_insert {data : Option SignalData} {now : Nat}
    {s : TrackerState} (ha : s.active = [])
    (h : insertingEvent (Event.signal now data) = false) :
    handle_connection_status data now s = s := by
  rcases data with _ | ⟨id, status⟩
  · rfl
  rcases id with _ | cid
  · rfl
  simp only [insertingEvent] at h
  unfold handle_connection_status
  dsimp only
  split_ifs with h1 h2 h3 h4
  · rw [h1.1] at h
    simp [h1.2] at h
  · rw [ha] at h2
    exact absurd h2.2 (List.not_mem_nil cid)
  · rw [h3.1] at h
    simp [h3.2] at h
  · rw [h4.1] at h
    simp [h4.2] at h
  · rfl

theorem no_insert_run (startup_time : Nat) (es : List Event) :
    ∀ s : TrackerState, (∀ e ∈ es, insertingEvent e = false) →
      s.active = [] → s.hadConnections = false → s.terminated = false →
      (run startup_time s es).active = [] ∧
      (run startup_time s es).hadConnections = false ∧
      (run startup_time s es).terminated = false := by
  induction es with
  | nil => exact fun s _ ha hh ht => ⟨ha, hh, ht⟩
  | cons e es ih =>
    intro s h ha hh ht
    rw [run_cons]
    have hstep : step startup_time s e = s := by
      rcases e with ⟨now, data⟩ | now
      · rw [(step_alive startup_time ht).1 now data]
        exact handle_no_insert ha (h _ (List.mem_cons_self _ _))
      · rw [(step_alive startup_time ht).2 now]
        exact monitorTick_empty_nohad ha hh
    rw [hstep]
    exact ih s (fun e' he' => h e' (List.mem_cons_of_mem _ he')) ha hh ht

/-- A stale session (positive recorded last ping, silent for longer than
`connection_timeout`) is gone from the registry after a post-grace
monitor iteration. -/
theorem evicted_at_tick {startup_time now lp : Nat} {s : TrackerState}
    {cid : String} (hnd : s.active.Nodup) (hmem : cid ∈ s.active)
    (hlp : lookupKey cid s.lastPing = some lp) (hpos : 0 < lp)
    (hg : ¬ now - startup_time < startup_grace_period)
    (hstale : connection_timeout < now - lp) :
    cid ∉ (monitorTick startup_time now s).active := by
  have hsm : cid ∈ staleOf now s := by
    rw [mem_staleOf, hlp]
    simp only [Option.getD_some]
    exact ⟨hmem, hpos, hstale⟩
  have hr : cid ∉ (reap now s).active := by
    rw [mem_reap_active hnd]
    rintro ⟨_, hns⟩
    exact hns hsm
  rw [monitorTick_def _ _ _ hg]
  split_ifs
  · exact hr
  · exact hr
  · exact hr

/-- A session whose recorded last ping is within the staleness window is
still in the registry after a post-grace monitor iteration. -/
theorem kept_at_tick {startup_time now lp : Nat} {s : TrackerState}
    {cid : String} (hnd : s.active.Nodup) (hmem : cid ∈ s.active)
    (hlp : lookupKey cid s.lastPing = some lp)
    (hg : ¬ now - startup_time < startup_grace_period)
    (hfresh : now - lp ≤ connection_timeout) :
    cid ∈ (monitorTick startup_time now s).active := by
  have hsm : cid ∉ staleOf now s := by
    rw [mem_staleOf, hlp]
    simp only [Option.getD_some]
    rintro ⟨_, _, hgt⟩
    omega
  have hr : cid ∈ (reap now s).active := by
    rw [mem_reap_active hnd]
    exact ⟨hmem, hsm⟩
  rw [monitorTick_def _ _ _ hg]
  split_ifs
  · exact hr
  · exact hr
  · exact hr

/-! ### Claim theorems -/

/-- C1, counterexample: the claim says `had_connections` becomes true at
the moment the first session is inserted by the handler (including during
the grace period).  In the code the flag is a variable of the monitor
thread, set only when a post-grace monitor iteration observes a nonempty
registry: after the first `connected` signal (here at time 10, process
started at 0) the session is in the registry but the flag is still
false. -/
theorem C1_counterexample :
    (run 0 initState
      [Event.signal 10 (some ⟨some "X", some "connected"⟩)]).active = ["X"] ∧
    (run 0 initState
      [Event.signal 10 (some ⟨some "X", some "connected"⟩)]).hadConnections
      = false := by
  decide

/-- C1, amended: the signal handler never changes `had_connections`; the
flag is set to true exactly by a post-grace monitor iteration that
observes a nonempty registry after stale removal (and otherwise keeps its
false value). -/
theorem C1_amended_flag_set_at_monitor (data : Option SignalData)
    (startup_time now : Nat) (s : TrackerState) :
    (handle_connection_status data now s).hadConnections = s.hadConnections ∧
    (¬ now - startup_time < startup_grace_period → s.hadConnections = false →
      ((monitorTick startup_time now s).hadConnections = true ↔
        (reap now s).active ≠ [])) := by
  refine ⟨(handle_flags data now s).1, fun hg hh => ?_⟩
  rw [monitorTick_def _ _ _ hg]
  have hr := (reap_flags now s).1
  split_ifs with h1 h2
  · exact iff_of_true rfl h1
  · rw [hr] at h2
    rw [hh] at h2
    cases h2
  · constructor
    · intro hc
      rw [hr, hh] at hc
      cases hc
    · intro hc
      exact absurd hc h1

theorem C1_amended_witness :
    (monitorTick 0 100 ⟨["X"], [("X", 90)], false, false, 0⟩).hadConnections
        = true ↔
      (reap 100 ⟨["X"], [("X", 90)], false, false, 0⟩).active ≠ [] :=
  (C1_amended_flag_set_at_monitor none 0 100
    ⟨["X"], [("X", 90)], false, false, 0⟩).2 (by decide) rfl

/-- C2, counterexample: the claim says the occupancy check (and hence the
`Terminated` transition) runs after every individual signal-handler
mutation.  In the code it runs only in the monitor loop: after the trace
connect("X")@61, tick@62, disconnect("X")@63 the registry is empty,
`had_connections` is true and the grace period (60) has elapsed, yet the
process has not terminated, because no monitor iteration has run since the
draining mutation. -/
theorem C2_counterexample :
    (run 0 initState
      [Event.signal 61 (some ⟨some "X", some "connected"⟩), Event.tick 62,
        Event.signal 63 (some ⟨some "X", some "disconnected"⟩)]).hadConnections
      = true ∧
    (run 0 initState
      [Event.signal 61 (some ⟨some "X", some "connected"⟩), Event.tick 62,
        Event.signal 63 (some ⟨some "X", some "disconnected"⟩)]).active = [] ∧
    (run 0 initState
      [Event.signal 61 (some ⟨some "X", some "connected"⟩), Event.tick 62,
        Event.signal 63 (some ⟨some "X", some "disconnected"⟩)]).terminated
      = false := by
  decide

/-- C2, amended: the occupancy check runs only on monitor iterations —
the signal handler never sets `terminated` — and any post-grace monitor
iteration that finds `had_connections` true and the registry empty
terminates the process. -/
theorem C2_amended_check_only_on_ticks (data : Option SignalData)
    (startup_time now : Nat) (s : TrackerState) :
    (handle_connection_status data now s).terminated = s.terminated ∧
    (¬ now - startup_time < startup_grace_period → s.hadConnections = true →
      s.active = [] → (monitorTick startup_time now s).terminated = true) := by
  refine ⟨(handle_flags data now s).2.1, fun hg hh ha => ?_⟩
  rw [monitorTick_terminates hg ha hh]

theorem C2_amended_witness :
    (monitorTick 0 100 ⟨[], [], true, false, 0⟩).terminated = true :=
  (C2_amended_check_only_on_ticks none 0 100 ⟨[], [], true, false, 0⟩).2
    (by decide) rfl rfl

/-- C3: in an execution in which no signal ever registers a session (so
the registry stays empty forever), the process never terminates, however
long it runs and however many post-grace monitor iterations observe the
empty registry: `had_connections` stays false and suppresses the
shutdown. -/
theorem C3_no_sessions_no_termination (startup_time : Nat) (es : List Event)
    (h : ∀ e ∈ es, insertingEvent e = false) :
    (run startup_time initState es).active = [] ∧
    (run startup_time initState es).hadConnections = false ∧
    (run startup_time initState es).terminated = false :=
  no_insert_run startup_time es initState h rfl rfl rfl

theorem C3_witness :
    (run 0 initState
      [Event.tick 100, Event.signal 101 (some ⟨some "", some "connected"⟩),
        Event.signal 102 (some ⟨some "X", some "disconnected"⟩),
        Event.tick 1000]).active = [] ∧
    (run 0 initState
      [Event.tick 100, Event.signal 101 (some ⟨some "", some "connected"⟩),
        Event.signal 102 (some ⟨some "X", some "disconnected"⟩),
        Event.tick 1000]).hadConnections = false ∧
    (run 0 initState
      [Event.tick 100, Event.signal 101 (some ⟨some "", some "connected"⟩),
        Event.signal 102 (some ⟨some "X", some "disconnected"⟩),
        Event.tick 1000]).terminated = false :=
  C3_no_sessions_no_termination 0 _ (by decide)

/-- C4: at a post-grace monitor iteration at time `now`, a registered
session whose recorded last ping `lp` is positive is evicted in that same
iteration exactly when `now - lp > connection_timeout` (first two
conjuncts: evicted when stale, kept while within the window — so a
session is live for at least `connection_timeout` after its last accepted
signal); and for a silent session there is a monitor iteration, on the
2-second schedule `startup_time + 2·k`, no later than
`lp + connection_timeout + sweep_interval`, at which it is gone (third
conjunct: reaped within `stalenessTimeout + sweepInterval` of going
silent). -/
theorem C4_stale_eviction (startup_time now lp : Nat) (s : TrackerState)
    (cid : String) (hnd : s.active.Nodup) (hmem : cid ∈ s.active)
    (hlp : lookupKey cid s.lastPing = some lp) (hpos : 0 < lp)
    (hgrace : startup_grace_period ≤ now - startup_time) :
    (connection_timeout < now - lp →
      cid ∉ (monitorTick startup_time now s).active) ∧
    (now - lp ≤ connection_timeout →
      cid ∈ (monitorTick startup_time now s).active) ∧
    (startup_time ≤ lp → ∃ k, 1 ≤ k ∧
      startup_time + sweep_interval * k ≤ lp + connection_timeout + sweep_interval ∧
      cid ∉ (monitorTick startup_time
        (startup_time + sweep_interval * k) s).active) := by
  refine ⟨fun hstale => ?_, fun hfresh => ?_, fun hstart => ?_⟩
  · exact evicted_at_tick hnd hmem hlp hpos (not_lt.mpr hgrace) hstale
  · exact kept_at_tick hnd hmem hlp (not_lt.mpr hgrace) hfresh
  · refine ⟨(lp + connection_timeout + sweep_interval - startup_time) / 2,
      ?_, ?_, ?_⟩
    · simp only [connection_timeout, sweep_interval]
      omega
    · simp only [connection_timeout, sweep_interval]
      omega
    · refine evicted_at_tick hnd hmem hlp hpos ?_ ?_
      · simp only [connection_timeout, sweep_interval, startup_grace_period]
        omega
      · simp only [connection_timeout, sweep_interval]
        omega

theorem C4_stale_eviction_witness :
    ((⟨["A"], [("A", 100)], false, false, 0⟩ : TrackerState).active.Nodup ∧
      "A" ∈ (⟨["A"], [("A", 100)], false, false, 0⟩ : TrackerState).active ∧
      lookupKey "A"
        (⟨["A"], [("A", 100)], false, false, 0⟩ : TrackerState).lastPing
        = some 100 ∧
      0 < 100 ∧ startup_grace_period ≤ 402 - 1) ∧
    ((connection_timeout < 402 - 100 →
      "A" ∉ (monitorTick 1 402 ⟨["A"], [("A", 100)], false, false, 0⟩).active) ∧
    (402 - 100 ≤ connection_timeout →
      "A" ∈ (monitorTick 1 402 ⟨["A"], [("A", 100)], false, false, 0⟩).active) ∧
    (1 ≤ 100 → ∃ k, 1 ≤ k ∧
      1 + sweep_interval * k ≤ 100 + connection_timeout + sweep_interval ∧
      "A" ∉ (monitorTick 1 (1 + sweep_interval * k)
        ⟨["A"], [("A", 100)], false, false, 0⟩).active)) :=
  ⟨⟨by decide, by decide, by decide, by decide, by decide⟩,
    C4_stale_eviction 1 402 100 ⟨["A"], [("A", 100)], false, false, 0⟩ "A"
      (by decide) (by decide) (by decide) (by decide) (by decide)⟩

/-- C5: repeated `connected`/`ping` signals for one id never create more
than one registry entry — after any such sequence the id occurs at most
once in `active_connections` — and a `disconnected` signal for an id not
in the registry leaves the whole tracker state literally unchanged. -/
theorem C5_idempotent_signals (s : TrackerState) (cid : String) (now : Nat)
    (hnd : s.active.Nodup) :
    (∀ sigs : List (Nat × String),
      (∀ p ∈ sigs, p.2 = "connected" ∨ p.2 = "ping") →
      ((sigs.foldl
          (fun acc p => handle_connection_status (some ⟨some cid, some p.2⟩)
            p.1 acc)
          s).active.count cid ≤ 1)) ∧
    (cid ∉ s.active →
      handle_connection_status (some ⟨some cid, some "disconnected"⟩) now s
        = s) := by
  constructor
  · intro sigs _
    exact List.nodup_iff_count_le_one.mp (foldl_handle_nodup sigs cid hnd) cid
  · intro hmem
    unfold handle_connection_status
    dsimp only
    rw [if_neg (fun h => absurd h.1 (by decide)),
      if_neg (fun h => hmem h.2),
      if_neg (fun h => absurd h.1 (by decide)),
      if_neg (fun h => absurd h.1 (by decide))]

theorem C5_idempotent_signals_witness :
    (((⟨[], [], false, false, 0⟩ : TrackerState).active.Nodup ∧
        (∀ p ∈ [((5 : Nat), "connected"), (6, "ping"), (7, "connected")],
          (p.2 = "connected" ∨ p.2 = "ping"))) ∧
      "X" ∉ (⟨[], [], false, false, 0⟩ : TrackerState).active) ∧
    (([((5 : Nat), "connected"), (6, "ping"), (7, "connected")].foldl
        (fun acc p => handle_connection_status (some ⟨some "X", some p.2⟩)
          p.1 acc)
        ⟨[], [], false, false, 0⟩).active.count "X" ≤ 1 ∧
      handle_connection_status (some ⟨some "X", some "disconnected"⟩) 9
        ⟨[], [], false, false, 0⟩ = ⟨[], [], false, false, 0⟩) :=
  ⟨⟨⟨by decide, by decide⟩, by decide⟩,
    (C5_idempotent_signals ⟨[], [], false, false, 0⟩ "X" 9 (by decide)).1
      [(5, "connected"), (6, "ping"), (7, "connected")] (by decide),
    (C5_idempotent_signals ⟨[], [], false, false, 0⟩ "X" 9 (by decide)).2
      (by decide)⟩

/-- C6: malformed signals cause no state change and no error: an empty
payload, a payload whose id is missing, and a payload whose status is
none of the four recognized kinds each leave the tracker state literally
unchanged (the handler is a total function that merely logs and returns
`dash.no_update`, so nothing propagates to the sender). -/
theorem C6_malformed_no_mutation (now : Nat) (s : TrackerState) :
    handle_connection_status none now s = s ∧
    (∀ d : SignalData, d.id = none →
      handle_connection_status (some d) now s = s) ∧
    (∀ d : SignalData,
      d.status ≠ some "connected" → d.status ≠ some "disconnected" →
      d.status ≠ some "ping" → d.status ≠ some "hidden" →
      handle_connection_status (some d) now s = s) := by
  refine ⟨rfl, ?_, ?_⟩
  · rintro ⟨id, status⟩ hid
    cases hid
    rfl
  · rintro ⟨id, status⟩ h1 h2 h3 h4
    rcases id with _ | cid
    · rfl
    unfold handle_connection_status
    dsimp only
    dsimp only at h1 h2 h3 h4
    rw [if_neg (fun h => h1 h.1), if_neg (fun h => h2 h.1),
      if_neg (fun h => h3 h.1), if_neg (fun h => h4 h.1)]

theorem C6_malformed_no_mutation_witness :
    handle_connection_status none 3 initState = initState ∧
    handle_connection_status (some ⟨none, some "connected"⟩) 3 initState
      = initState ∧
    handle_connection_status (some ⟨some "X", some "bogus"⟩) 3 initState
      = initState :=
  ⟨(C6_malformed_no_mutation 3 initState).1,
    (C6_malformed_no_mutation 3 initState).2.1 ⟨none, some "connected"⟩ rfl,
    (C6_malformed_no_mutation 3 initState).2.2 ⟨some "X", some "bogus"⟩
      (by decide) (by decide) (by decide) (by decide)⟩

/-- C7: a `ping` or `hidden` signal with a non-empty id always upserts:
afterwards the id's recorded last ping is `now` and the id is in the
registry (an unknown id is re-inserted — implicit reconnect), and no
session is removed by the signal (every previously registered id is still
registered). -/
theorem C7_ping_hidden_upsert (s : TrackerState) (cid : String) (now : Nat)
    (status : String) (hcid : cid ≠ "")
    (hstatus : status = "ping" ∨ status = "hidden") :
    lookupKey cid
        (handle_connection_status (some ⟨some cid, some status⟩) now s).lastPing
      = some now ∧
    cid ∈ (handle_connection_status (some ⟨some cid, some status⟩) now s).active ∧
    ∀ c ∈ s.active,
      c ∈ (handle_connection_status (some ⟨some cid, some status⟩) now s).active := by
  have hred : handle_connection_status (some ⟨some cid, some status⟩) now s =
      { s with lastPing := setKey cid now s.lastPing,
               active := setAdd cid s.active } := by
    rcases hstatus with h | h <;> subst h
    · unfold handle_connection_status
      dsimp only
      rw [if_neg (fun hx => absurd hx.1 (by decide)),
        if_neg (fun hx => absurd hx.1 (by decide)),
        if_pos ⟨rfl, hcid⟩]
    · unfold handle_connection_status
      dsimp only
      rw [if_neg (fun hx => absurd hx.1 (by decide)),
        if_neg (fun hx => absurd hx.1 (by decide)),
        if_neg (fun hx => absurd hx.1 (by decide)),
        if_pos ⟨rfl, hcid⟩]
  rw [hred]
  refine ⟨lookupKey_setKey_self cid now s.lastPing, ?_, ?_⟩
  · show cid ∈ setAdd cid s.active
    rw [mem_setAdd]
    exact Or.inl rfl
  · intro c hc
    show c ∈ setAdd cid s.active
    rw [mem_setAdd]
    exact Or.inr hc

theorem C7_ping_hidden_upsert_witness :
    ("Y" ≠ "" ∧ ("hidden" = "ping" ∨ "hidden" = "hidden")) ∧
    (lookupKey "Y"
        (handle_connection_status (some ⟨some "Y", some "hidden"⟩) 42
          ⟨["A"], [("A", 7)], false, false, 0⟩).lastPing = some 42 ∧
      "Y" ∈ (handle_connection_status (some ⟨some "Y", some "hidden"⟩) 42
        ⟨["A"], [("A", 7)], false, false, 0⟩).active ∧
      ∀ c ∈ (⟨["A"], [("A", 7)], false, false, 0⟩ : TrackerState).active,
        c ∈ (handle_connection_status (some ⟨some "Y", some "hidden"⟩) 42
          ⟨["A"], [("A", 7)], false, false, 0⟩).active) :=
  ⟨⟨by decide, by decide⟩,
    C7_ping_hidden_upsert ⟨["A"], [("A", 7)], false, false, 0⟩ "Y" 42 "hidden"
      (by decide) (by decide)⟩

/-- C8: `had_connections` is monotone: once it is true, it remains true
after any further sequence of events (signal handling, monitor iterations
with their reap cycles and occupancy checks), regardless of how long the
registry stays empty. -/
theorem C8_hadAnySession_monotone (startup_time : Nat) (s : TrackerState)
    (es : List Event) (h : s.hadConnections = true) :
    (run startup_time s es).hadConnections = true :=
  run_had_mono startup_time es h

theorem C8_hadAnySession_monotone_witness :
    ((⟨[], [], true, false, 0⟩ : TrackerState).hadConnections = true) ∧
    (run 0 (⟨[], [], true, false, 0⟩ : TrackerState)
      [Event.tick 100, Event.signal 101 none,
        Event.signal 102 (some ⟨some "X", some "disconnected"⟩),
        Event.tick 200]).hadConnections = true :=
  ⟨rfl, C8_hadAnySession_monotone 0 ⟨[], [], true, false, 0⟩
    [Event.tick 100, Event.signal 101 none,
      Event.signal 102 (some ⟨some "X", some "disconnected"⟩),
      Event.tick 200] rfl⟩

/-- C9: the terminate action is issued exactly once.  At most once: in any
execution from process start the exit counter never exceeds one (the
`Terminated` state is absorbing).  At least once: if some prefix of the
execution drains the registry to empty with `had_connections` true and the
process still alive, then as soon as a post-grace monitor iteration
follows, the whole execution ends with the exit issued exactly once,
whatever events come afterwards. -/
theorem C9_terminate_exactly_once (startup_time : Nat) (es1 es2 : List Event)
    (now : Nat)
    (h1 : (run startup_time initState es1).hadConnections = true)
    (h2 : (run startup_time initState es1).active = [])
    (h3 : (run startup_time initState es1).terminated = false)
    (hg : startup_grace_period ≤ now - startup_time) :
    (run startup_time initState (es1 ++ Event.tick now :: es2)).exitCount
      = 1 ∧
    ∀ es : List Event, (run startup_time initState es).exitCount ≤ 1 := by
  constructor
  · rw [run_append, run_cons, (step_alive startup_time h3).2 now,
      monitorTick_terminates (not_lt.mpr hg) h2 h1,
      run_terminated startup_time rfl es2]
    show (run startup_time initState es1).exitCount + 1 = 1
    rcases ExitSync_run startup_time ExitSync_initState es1 with
      ⟨ht, _⟩ | ⟨_, hc⟩
    · rw [h3] at ht
      cases ht
    · rw [hc]
  · intro es
    rcases ExitSync_run startup_time ExitSync_initState es with
      ⟨_, hc⟩ | ⟨_, hc⟩ <;> rw [hc]
    exact Nat.zero_le 1

theorem C9_terminate_exactly_once_witness :
    ((run 0 initState
        [Event.signal 61 (some ⟨some "X", some "connected"⟩), Event.tick 62,
          Event.signal 63 (some ⟨some "X", some "disconnected"⟩)]).hadConnections
        = true ∧
      (run 0 initState
        [Event.signal 61 (some ⟨some "X", some "connected"⟩), Event.tick 62,
          Event.signal 63 (some ⟨some "X", some "disconnected"⟩)]).active = [] ∧
      (run 0 initState
        [Event.signal 61 (some ⟨some "X", some "connected"⟩), Event.tick 62,
          Event.signal 63 (some ⟨some "X", some "disconnected"⟩)]).terminated
        = false ∧
      startup_grace_period ≤ 64 - 0) ∧
    ((run 0 initState
        ([Event.signal 61 (some ⟨some "X", some "connected"⟩), Event.tick 62,
          Event.signal 63 (some ⟨some "X", some "disconnected"⟩)] ++
          Event.tick 64 :: [Event.tick 66])).exitCount = 1 ∧
      ∀ es : List Event, (run 0 initState es).exitCount ≤ 1) :=
  ⟨⟨by decide, by decide, by decide, by decide⟩,
    C9_terminate_exactly_once 0
      [Event.signal 61 (some ⟨some "X", some "connected"⟩), Event.tick 62,
        Event.signal 63 (some ⟨some "X", some "disconnected"⟩)]
      [Event.tick 66] 64 (by decide) (by decide) (by decide) (by decide)⟩

/-- C10: in every execution from process start, and additionally after any
further sequence of single-session evictions (the reaper's removal loop
runs `removeConn` once per stale id, so every intermediate state of a reap
cycle has this shape), `active_connections` is exactly the key set of
`connection_last_ping`: an id is tracked iff it has a recorded last-ping
time. -/
theorem C10_registry_sync (startup_time : Nat) (es : List Event)
    (rm : List String) : ∀ c : String,
    c ∈ (rm.foldl removeConn (run startup_time initState es)).active ↔
      (lookupKey c
        (rm.foldl removeConn (run startup_time initState es)).lastPing).isSome
        = true :=
  (TrackerInv_foldl_removeConn rm
    (TrackerInv_run startup_time TrackerInv_initState es)).2.2
